import Mathlib

/-!
Shallow embedding of the CAQE route handlers (`src/caqe/views.py`):
the pre-evaluation workflow controller (`pre_evaluation_tasks`), the
hearing-test handler (`hearing_test`, GET and POST branches) and the
evaluation submission handler (`evaluation`, POST branch), together with
the participant/trial data model they act on.

Machine integers are modelled as `Nat` (Python 2 ints are unbounded and the
quantities here are non-negative); Python 2 integer division `/` on
non-negative ints is `Nat` division.  Exceptions escaping a handler are an
explicit constructor; code the handler runs inside `try` reports errors
through its `except` branch.
-/

namespace Caqe

/-- Configuration flags read by the handlers from the global `CONFIGURATION`
dictionary (`settings.py`). -/
structure Config where
  obtain_consent : Bool
  hearing_screening_test_enabled : Bool
  pre_test_survey_enabled : Bool
  max_hearing_test_attempts : Nat
  hearing_test_rejection_enabled : Bool
deriving Repr, DecidableEq

/-- The persisted participant row, restricted to the fields the embedded
handlers read or write.  `passed_hearing_test_recently` holds the value of
`Participant.has_passed_hearing_test_recently()`; `models.py` is not under
`src/`, so that method is modelled from the spec ("Hearing screening ...
skip when recent pass exists"): a flag tracking whether the most recent
recorded hearing-test outcome is a pass. -/
structure Participant where
  id : Nat
  gave_consent : Bool
  hearing_test_attempts : Nat
  passed_hearing_test : Bool
  passed_hearing_test_recently : Bool
  pre_test_survey : Option String
deriving Repr, DecidableEq

/-- Modelled from the spec: `Participant.set_passed_hearing_test` lives in
`models.py`, which is not under `src/`.  Spec 4.3: "Pass: record pass,
increment attempts" / "Fail: record failure, increment attempts", with the
outcome recorded with a timestamp, so the recent-pass flag tracks the newly
recorded outcome. -/
def Participant.set_passed_hearing_test (p : Participant) (b : Bool) : Participant :=
  { p with
    passed_hearing_test := b
    passed_hearing_test_recently := b
    hearing_test_attempts := p.hearing_test_attempts + 1 }

/-- Modelled from the spec: the tamper-evident tokens produced by
`utilities.encrypt_data` / checked by `utilities.decrypt_data`
(`utilities.py` is not under `src/`).  Spec design note: "serialize a small
structured value, apply an authenticated encoding, and reject/flag on
verification failure at decode time."  `valid n` is a well-formed token
encoding `n`; `tampered` is a token that fails verification. -/
inductive Token where
  | valid (n : Nat)
  | tampered
deriving Repr, DecidableEq

/-- Modelled from the spec: authenticated encoding of a stimulus index. -/
def encrypt_data (n : Nat) : Token := Token.valid n

/-- Modelled from the spec: authenticated decoding; `none` is a decode
(verification) failure, which in the Python raises when the caller goes on
to use the value. -/
def decrypt_data : Token → Option Nat
  | Token.valid n => some n
  | Token.tampered => none

/-- Modelled from the spec: `utilities.sign_data` (not under `src/`), the
"tamper-evident receipt token": an authenticated encoding of a small string. -/
def sign_data (s : String) : String := "signed:" ++ s

/-- The session fields the embedded handlers read or write
(`flask.session`). -/
structure SessionState where
  participant_id : Option Nat
  condition_ids : Option (List Nat)
  hearing_test_audio_index1 : Option Token
  hearing_test_audio_index2 : Option Token
  crowd_data : String
deriving Repr, DecidableEq

/-- The responses the embedded handlers can produce.  `apology m` is
`render_template('sorry.html', message=m)`; the `redirect*` constructors
are the `redirect(url_for(...))` calls; `renderHearingScreening` is
`render_template('hearing_screening.html')`; `unhandledError` is an
exception escaping the handler (surfaced by the 500 error handler). -/
inductive Response where
  | apology (message : String)
  | redirectConsent
  | redirectHearingTest
  | redirectPreTestSurvey
  | redirectEvaluation
  | renderHearingScreening
  | unhandledError (message : String)
deriving Repr, DecidableEq

/-- A handler outcome: the response sent plus the session as the handler
left it. -/
structure StepResult where
  response : Response
  session : SessionState
deriving Repr, DecidableEq

/-- `get_current_participant(session)` (views.py lines 63-97), embedded over
an explicit list of persisted participant rows: a missing
`session['participant_id']` renders the third-party-cookie apology page; an
id with no matching row raises. -/
def get_current_participant (db : List Participant) (s : SessionState) :
    Except Response Participant :=
  match s.participant_id with
  | none => Except.error (Response.apology "third-party cookies required")
  | some pid =>
    match db.find? (fun p => p.id == pid) with
    | none => Except.error (Response.unhandledError "participant_id is invalid")
    | some p => Except.ok p

/-- Message of the terminal page when no conditions are available for the
participant (views.py line 350). -/
def noTasksMessage : String := "there are no more tasks available for you"

/-- Message of the terminal page when the recorded pre-test survey fails the
inclusion criteria (views.py lines 363-365). -/
def inclusionMessage : String := "you do not meet the inclusion criteria for this study"

/-- Message of the terminal page when the hearing-test attempt limit is
reached (views.py lines 437-438). -/
def maxAttemptsMessage : String := "you have exceeded the number of allowed attempts"

/-- The response `pre_evaluation_tasks` computes once the participant is
resolved and the conditions are assigned (views.py lines 345-367).
`surveyValid` stands for
`experiment.is_pre_test_survey_valid(json.loads(...), criteria)`
(`experiment.py` is not under `src/`; the spec treats the inclusion
criteria as an external predicate on the stored survey blob). -/
def pre_evaluation_response (cfg : Config) (surveyValid : String → Bool)
    (participant : Participant) (assigned : Option (List Nat)) : Response :=
  match assigned with
  | none => Response.apology noTasksMessage
  | some cids =>
    if cids.isEmpty then Response.apology noTasksMessage
    else if cfg.obtain_consent && !participant.gave_consent then
      Response.redirectConsent
    else if cfg.hearing_screening_test_enabled
        && !participant.passed_hearing_test_recently then
      Response.redirectHearingTest
    else if cfg.pre_test_survey_enabled then
      match participant.pre_test_survey with
      | none => Response.redirectPreTestSurvey
      | some survey =>
        if !surveyValid survey then Response.apology inclusionMessage
        else Response.redirectEvaluation
    else Response.redirectEvaluation

/-- `pre_evaluation_tasks()` (views.py lines 331-367): resolve the
participant from the session, overwrite `session['condition_ids']` with a
fresh `experiment.assign_conditions(participant)` (the allocator `alloc` is
external: `experiment.py` is not under `src/`; per the spec it is "subject
to availability and balancing constraints", so it is passed in as the
allocator's behaviour at this invocation), then branch to the next step. -/
def pre_evaluation_tasks (cfg : Config) (surveyValid : String → Bool)
    (db : List Participant) (alloc : Participant → Option (List Nat))
    (s : SessionState) : StepResult :=
  match get_current_participant db s with
  | Except.error r => ⟨r, s⟩
  | Except.ok participant =>
    ⟨pre_evaluation_response cfg surveyValid participant (alloc participant),
     { s with condition_ids := alloc participant }⟩

/-- The redraw loop of the hearing-test GET branch (views.py lines 440-451),
with the stream of `random.randint` pairs explicit and fuel bounding the
number of iterations inspected: returns the first pair with distinct
components among `draws start, draws (start+1), ...`, or `none` when the
loop is still running after `fuel` iterations. -/
def drawDistinct (draws : Nat → Nat × Nat) : Nat → Nat → Option (Nat × Nat)
  | _, 0 => none
  | start, fuel + 1 =>
    let d := draws start
    if d.1 ≠ d.2 then some d else drawDistinct draws (start + 1) fuel

/-- The draw stream stays inside the configured index range
`[MIN_HEARING_TEST_AUDIO_INDEX, MAX_HEARING_TEST_AUDIO_INDEX]`
(`random.randint` is inclusive on both ends). -/
def drawsInRange (draws : Nat → Nat × Nat) (lo hi : Nat) : Prop :=
  ∀ n, lo ≤ (draws n).1 ∧ (draws n).1 ≤ hi ∧ lo ≤ (draws n).2 ∧ (draws n).2 ≤ hi

/-- The GET branch of `hearing_test` (views.py lines 434-453): reject with
the terminal page when the attempt limit is reached, otherwise run the
redraw loop and store the two encrypted indices in the session.  `none`
means the redraw loop has not exited within `fuel` iterations. -/
def hearing_test_get (cfg : Config) (participant : Participant)
    (draws : Nat → Nat × Nat) (fuel : Nat) (s : SessionState) :
    Option StepResult :=
  if participant.hearing_test_attempts ≥ cfg.max_hearing_test_attempts then
    some ⟨Response.apology maxAttemptsMessage, s⟩
  else
    match drawDistinct draws 0 fuel with
    | none => none
    | some (i1, i2) =>
      some ⟨Response.renderHearingScreening,
        { s with
          hearing_test_audio_index1 := some (encrypt_data i1)
          hearing_test_audio_index2 := some (encrypt_data i2) }⟩

/-- Control outcome of the hearing-test POST branch: `proceed` is
`return pre_evaluation_tasks()` (the pass branch, and the pass-through
branch when rejection is disabled); `redirectGet` is the redirect back to
the GET branch; `crash` is an exception escaping the handler. -/
inductive HearingPostControl where
  | proceed
  | redirectGet
  | crash (message : String)
deriving Repr, DecidableEq

/-- Outcome of the hearing-test POST branch: the participant row as
persisted by the request, the control decision, and whether the
incorrect-answer warning was flashed. -/
structure HearingPostResult where
  participant : Participant
  control : HearingPostControl
  warned : Bool
deriving Repr, DecidableEq

/-- The failure branch of the hearing-test POST (views.py lines 471-485):
record the failure (incrementing attempts), flash a warning while attempts
remain, pass the participant through to the workflow controller when the
attempts are exhausted and rejection is disabled, and otherwise redirect
back to the GET branch. -/
def hearingFailBranch (cfg : Config) (p : Participant) : HearingPostResult :=
  let p' := p.set_passed_hearing_test false
  if p'.hearing_test_attempts < cfg.max_hearing_test_attempts then
    ⟨p', HearingPostControl.redirectGet, true⟩
  else if !cfg.hearing_test_rejection_enabled then
    ⟨p', HearingPostControl.proceed, false⟩
  else
    ⟨p', HearingPostControl.redirectGet, false⟩

/-- The POST branch of `hearing_test` (views.py lines 454-485).  `tok1`,
`tok2` are `session['hearing_test_audio_index1/2']` (`none` when the key is
missing: the `except KeyError` branch logs and leaves the local variable
`None`).  `reported1`, `reported2` are the submitted tone counts;
`filesPerTones` is `HEARING_TEST_AUDIO_FILES_PER_TONES`.  The comparison
short-circuits as in Python: decoding of the second token is only reached
when the first comparison succeeds, and decoding `None` or a tampered token
raises out of the handler. -/
def hearing_test_post (cfg : Config) (p : Participant)
    (tok1 tok2 : Option Token) (reported1 reported2 : Nat)
    (filesPerTones : Nat) : HearingPostResult :=
  match tok1.bind decrypt_data with
  | none => ⟨p, HearingPostControl.crash "cannot decode hearing_test_audio_index1", false⟩
  | some n1 =>
    if reported1 = n1 / filesPerTones then
      match tok2.bind decrypt_data with
      | none => ⟨p, HearingPostControl.crash "cannot decode hearing_test_audio_index2", false⟩
      | some n2 =>
        if reported2 = n2 / filesPerTones then
          ⟨p.set_passed_hearing_test true, HearingPostControl.proceed, false⟩
        else
          hearingFailBranch cfg p
    else
      hearingFailBranch cfg p

/-- One element of the submitted `completedConditionData` JSON array of the
evaluation POST.  `conditionID = none` models a payload on which
`int(cd['conditionID'])` raises; `decrypt_ok = false` models a payload on
which `experiment.decrypt_audio_stimuli(cd)` raises (the de-obfuscation of
the embedded stimulus references; `experiment.py` is not under `src/`, the
spec only requires it to reverse the client-side obfuscation or fail). -/
structure CondPayload where
  conditionID : Option Nat
  data : String
  decrypt_ok : Bool
deriving Repr, DecidableEq

/-- The persisted Trial row (`Trial(participant_id, condition_id, data,
crowd_data, participant_passed_hearing_test)`, views.py lines 550-551). -/
structure Trial where
  id : Nat
  participant_id : Nat
  condition_id : Nat
  data : String
  crowd_data : String
  participant_passed_hearing_test : Bool
deriving Repr, DecidableEq

/-- The per-payload loop of the evaluation POST (views.py lines 542-553):
build one Trial per payload (ids assigned sequentially from `nextId` as the
database would on commit), stopping with the exception when a payload's
condition id or stimulus decryption fails.  No membership check against
`session['condition_ids']` appears in the loop. -/
def buildTrials (pid : Nat) (crowd : String) (passed : Bool) :
    Nat → List CondPayload → Except String (List Trial)
  | _, [] => Except.ok []
  | nextId, cd :: rest =>
    match cd.conditionID with
    | none => Except.error "invalid conditionID"
    | some cid =>
      if cd.decrypt_ok then
        match buildTrials pid crowd passed (nextId + 1) rest with
        | Except.error e => Except.error e
        | Except.ok ts =>
          Except.ok (Trial.mk nextId pid cid cd.data crowd passed :: ts)
      else Except.error "failed to decrypt audio stimuli"

/-- The JSON body returned by the evaluation POST:
`ok` is `{'error': False, 'message': ..., 'trial_id': sign_data(trial.id)}`,
`err` is `{'error': True, 'message': ... sign_data(str(e))}`. -/
inductive EvalResponse where
  | ok (message : String) (signed_trial_id : String)
  | err (signed_detail : String)
deriving Repr, DecidableEq

/-- Outcome of the evaluation POST: the committed trial store after the
request and the JSON response. -/
structure EvalOutcome where
  db : List Trial
  response : EvalResponse
deriving Repr, DecidableEq

/-- The POST branch of `evaluation` (views.py lines 531-559).  `db` is the
committed trial store before the request; rows added with
`db.session.add` only reach the store at the single `db.session.commit()`
(line 555), so any exception before it leaves the store unchanged and is
answered by the `except` branch with a signed error detail.  After a commit
of a non-empty batch the success body signs the id of the last trial
written; after an empty batch the name `trial` is unbound, so building the
success body raises and the `except` branch answers instead (the commit of
the empty batch added nothing). -/
def evaluation_post (p : Participant) (s : SessionState)
    (submitted_participant_id : Nat) (condition_data : List CondPayload)
    (db : List Trial) (nextTrialId : Nat) : EvalOutcome :=
  if submitted_participant_id ≠ p.id then
    ⟨db, EvalResponse.err (sign_data "AssertionError")⟩
  else
    match buildTrials submitted_participant_id s.crowd_data
        p.passed_hearing_test nextTrialId condition_data with
    | Except.error e => ⟨db, EvalResponse.err (sign_data e)⟩
    | Except.ok trials =>
      match trials.getLast? with
      | some t =>
        ⟨db ++ trials, EvalResponse.ok "Data is saved!" (sign_data (toString t.id))⟩
      | none =>
        ⟨db ++ trials, EvalResponse.err (sign_data "NameError: trial is not defined")⟩

/-! ## Helper lemmas -/

/-- When the per-payload loop succeeds, it builds exactly one trial per
payload, and the stored condition ids are exactly the submitted ones,
verbatim. -/
theorem buildTrials_ok_spec (pid : Nat) (crowd : String) (passed : Bool) :
    ∀ (cds : List CondPayload) (n : Nat) (ts : List Trial),
      buildTrials pid crowd passed n cds = Except.ok ts →
      ts.map (fun t => t.condition_id) = cds.filterMap (fun cd => cd.conditionID) ∧
      ts.length = cds.length := by
  intro cds
  induction cds with
  | nil =>
    intro n ts h
    simp only [buildTrials, Except.ok.injEq] at h
    subst h
    simp
  | cons cd rest ih =>
    intro n ts h
    simp only [buildTrials] at h
    cases hcid : cd.conditionID with
    | none => simp only [hcid] at h; exact absurd h (by simp)
    | some cid =>
      simp only [hcid] at h
      by_cases hd : cd.decrypt_ok = true
      · rw [if_pos hd] at h
        cases hrec : buildTrials pid crowd passed (n + 1) rest with
        | error e => simp only [hrec] at h; exact absurd h (by simp)
        | ok ts2 =>
          simp only [hrec, Except.ok.injEq] at h
          subst h
          obtain ⟨h1, h2⟩ := ih (n + 1) ts2 hrec
          simp [List.filterMap_cons, hcid, h1, h2]
      · rw [if_neg hd] at h; exact absurd h (by simp)

/-- The participant recorded by the failure branch of the hearing-test POST
is always the failed participant, in every configuration. -/
theorem hearingFailBranch_participant (cfg : Config) (p : Participant) :
    (hearingFailBranch cfg p).participant = p.set_passed_hearing_test false := by
  unfold hearingFailBranch
  by_cases h1 : (p.set_passed_hearing_test false).hearing_test_attempts <
      cfg.max_hearing_test_attempts
  · simp [h1]
  · by_cases h2 : cfg.hearing_test_rejection_enabled <;> simp [h1, h2]

/-- `get_current_participant` reads only `participant_id` from the session. -/
theorem get_current_participant_congr (db : List Participant)
    (s1 s2 : SessionState) (h : s1.participant_id = s2.participant_id) :
    get_current_participant db s1 = get_current_participant db s2 := by
  unfold get_current_participant
  rw [h]

/-! ## Claims -/

/-- C1 counterexample: the claim states that no Trial row is ever created
for a condition id outside `session['condition_ids']`.  Here the session
assigns only condition 1, the submission carries condition 2, and the
handler commits a Trial for condition 2 and answers with success: the code
never consults `session['condition_ids']` in the POST branch. -/
theorem evaluation_post_stores_unassigned_condition :
    (evaluation_post ⟨7, true, 1, true, true, none⟩
        ⟨some 7, some [1], none, none, "crowd"⟩ 7
        [⟨some 2, "payload", true⟩] [] 1).db =
      [⟨1, 7, 2, "payload", "crowd", true⟩] ∧
    (2 : Nat) ∉ [1] ∧
    (evaluation_post ⟨7, true, 1, true, true, none⟩
        ⟨some 7, some [1], none, none, "crowd"⟩ 7
        [⟨some 2, "payload", true⟩] [] 1).response =
      EvalResponse.ok "Data is saved!" (sign_data "1") :=
  ⟨rfl, by decide, rfl⟩

/-- C1 amended: the evaluation POST performs no membership check against
`session['condition_ids']`: its outcome is identical for any two values of
that session field, and on success the committed trials carry exactly the
submitted condition ids, verbatim. -/
theorem evaluation_post_ignores_condition_ids
    (p : Participant) (s : SessionState) (cids1 cids2 : Option (List Nat))
    (spid : Nat) (cds : List CondPayload) (db : List Trial) (n : Nat) :
    (evaluation_post p { s with condition_ids := cids1 } spid cds db n =
      evaluation_post p { s with condition_ids := cids2 } spid cds db n) ∧
    (∀ m sid, (evaluation_post p s spid cds db n).response = EvalResponse.ok m sid →
      ∃ ts, buildTrials spid s.crowd_data p.passed_hearing_test n cds = Except.ok ts ∧
        (evaluation_post p s spid cds db n).db = db ++ ts ∧
        ts.map (fun t => t.condition_id) = cds.filterMap (fun cd => cd.conditionID)) := by
  constructor
  · rfl
  · intro m sid h
    unfold evaluation_post at h ⊢
    by_cases hp : spid ≠ p.id
    · rw [if_pos hp] at h; exact absurd h (by simp)
    · rw [if_neg hp] at h ⊢
      cases hb : buildTrials spid s.crowd_data p.passed_hearing_test n cds with
      | error e => simp [hb] at h
      | ok ts =>
        simp only [hb] at h ⊢
        cases hl : ts.getLast? with
        | none => simp [hl] at h
        | some t =>
          simp only [hl]
          exact ⟨ts, rfl, rfl, (buildTrials_ok_spec spid s.crowd_data
            p.passed_hearing_test cds n ts hb).1⟩

/-- C1 amended, witness at a concrete input. -/
theorem evaluation_post_ignores_condition_ids_witness :
    ∃ ts, buildTrials 7 "crowd" true 1 [⟨some 2, "payload", true⟩] = Except.ok ts ∧
      (evaluation_post ⟨7, true, 1, true, true, none⟩
          ⟨some 7, some [1], none, none, "crowd"⟩ 7
          [⟨some 2, "payload", true⟩] [] 1).db = [] ++ ts ∧
      ts.map (fun t => t.condition_id) =
        [CondPayload.mk (some 2) "payload" true].filterMap (fun cd => cd.conditionID) :=
  (evaluation_post_ignores_condition_ids ⟨7, true, 1, true, true, none⟩
    ⟨some 7, some [1], none, none, "crowd"⟩ (some [1]) (some [2]) 7
    [⟨some 2, "payload", true⟩] [] 1).2 "Data is saved!" (sign_data "1") rfl

/-- C2: whenever the submitted participant id differs from the session's
resolved participant id, the evaluation POST answers with the error JSON
(carrying the signed assertion failure) and commits no trial: the store
after the request equals the store before it. -/
theorem evaluation_post_participant_mismatch
    (p : Participant) (s : SessionState) (spid : Nat) (cds : List CondPayload)
    (db : List Trial) (n : Nat) (h : spid ≠ p.id) :
    (evaluation_post p s spid cds db n).response =
      EvalResponse.err (sign_data "AssertionError") ∧
    (evaluation_post p s spid cds db n).db = db := by
  unfold evaluation_post
  rw [if_pos h]
  exact ⟨rfl, rfl⟩

/-- C2, witness at a concrete input. -/
theorem evaluation_post_participant_mismatch_witness :
    (evaluation_post ⟨7, true, 1, true, true, none⟩
        ⟨some 7, some [1], none, none, "crowd"⟩ 8
        [⟨some 1, "payload", true⟩] [] 1).response =
      EvalResponse.err (sign_data "AssertionError") ∧
    (evaluation_post ⟨7, true, 1, true, true, none⟩
        ⟨some 7, some [1], none, none, "crowd"⟩ 8
        [⟨some 1, "payload", true⟩] [] 1).db = [] :=
  evaluation_post_participant_mismatch ⟨7, true, 1, true, true, none⟩
    ⟨some 7, some [1], none, none, "crowd"⟩ 8
    [⟨some 1, "payload", true⟩] [] 1 (by decide)

/-- C3: the evaluation POST is atomic.  On a success response the committed
store is the prior store extended by one trial per submitted payload, and
the receipt is the signed id of the last trial written; on an error
response the committed store is exactly the prior store (the single
`db.session.commit()` was either never reached, or committed an empty
batch before the success body raised on the unbound `trial`). -/
theorem evaluation_post_atomic
    (p : Participant) (s : SessionState) (spid : Nat) (cds : List CondPayload)
    (db : List Trial) (n : Nat) :
    (∀ m sid, (evaluation_post p s spid cds db n).response = EvalResponse.ok m sid →
      ∃ ts t, buildTrials spid s.crowd_data p.passed_hearing_test n cds = Except.ok ts ∧
        ts.length = cds.length ∧
        (evaluation_post p s spid cds db n).db = db ++ ts ∧
        ts.getLast? = some t ∧ sid = sign_data (toString t.id)) ∧
    (∀ e, (evaluation_post p s spid cds db n).response = EvalResponse.err e →
      (evaluation_post p s spid cds db n).db = db) := by
  unfold evaluation_post
  by_cases hp : spid ≠ p.id
  · rw [if_pos hp]
    exact ⟨fun m sid h => absurd h (by simp), fun e _ => rfl⟩
  · rw [if_neg hp]
    cases hb : buildTrials spid s.crowd_data p.passed_hearing_test n cds with
    | error e2 =>
      simp only [hb]
      exact ⟨fun m sid h => absurd h (by simp), fun e _ => trivial⟩
    | ok ts =>
      simp only [hb]
      cases hl : ts.getLast? with
      | none =>
        have hts : ts = [] := List.getLast?_eq_none_iff.mp hl
        subst hts
        simp only [List.getLast?_nil]
        exact ⟨fun m sid h => absurd h (by simp), fun e _ => by simp⟩
      | some t =>
        simp only [hl]
        refine ⟨fun m sid h => ?_, fun e h => absurd h (by simp)⟩
        simp only [EvalResponse.ok.injEq] at h
        exact ⟨ts, t, rfl, (buildTrials_ok_spec spid s.crowd_data
          p.passed_hearing_test cds n ts hb).2, rfl, hl, h.2.symm⟩

/-- C3, witness: a successful two-payload submission commits both trials
with the signed id of the second, and a mismatched submission commits
nothing. -/
theorem evaluation_post_atomic_witness :
    (∃ ts t, buildTrials 7 "crowd" true 1
        [⟨some 1, "a", true⟩, ⟨some 2, "b", true⟩] = Except.ok ts ∧
      ts.length = 2 ∧
      (evaluation_post ⟨7, true, 1, true, true, none⟩
          ⟨some 7, some [1, 2], none, none, "crowd"⟩ 7
          [⟨some 1, "a", true⟩, ⟨some 2, "b", true⟩] [] 1).db = [] ++ ts ∧
      ts.getLast? = some t ∧ sign_data "2" = sign_data (toString t.id)) ∧
    (evaluation_post ⟨7, true, 1, true, true, none⟩
        ⟨some 7, some [1, 2], none, none, "crowd"⟩ 9
        [⟨some 1, "a", true⟩] [] 1).db = [] := by
  refine ⟨?_, ?_⟩
  · have h := (evaluation_post_atomic ⟨7, true, 1, true, true, none⟩
      ⟨some 7, some [1, 2], none, none, "crowd"⟩ 7
      [⟨some 1, "a", true⟩, ⟨some 2, "b", true⟩] [] 1).1 "Data is saved!"
      (sign_data "2") rfl
    simpa using h
  · exact (evaluation_post_atomic ⟨7, true, 1, true, true, none⟩
      ⟨some 7, some [1, 2], none, none, "crowd"⟩ 9
      [⟨some 1, "a", true⟩] [] 1).2 (sign_data "AssertionError") rfl

/-- C4 counterexample: the claim states that with rejection disabled a
participant whose attempts equal the maximum is always passed through to
the next workflow step.  With rejection disabled (last config field), a
participant with 2 of 2 attempts and no recent pass is still routed to the
hearing test by the workflow controller, and the hearing-test GET branch
answers with the terminal attempts-exceeded page — neither a pass-through
to the next step nor a new challenge. -/
theorem hearing_test_get_terminal_despite_rejection_disabled :
    pre_evaluation_response ⟨false, true, false, 2, false⟩ (fun _ => true)
        ⟨7, true, 2, false, false, none⟩ (some [1]) =
      Response.redirectHearingTest ∧
    hearing_test_get ⟨false, true, false, 2, false⟩ ⟨7, true, 2, false, false, none⟩
        (fun _ => (1, 2)) 1 ⟨some 7, some [1], none, none, "crowd"⟩ =
      some ⟨Response.apology maxAttemptsMessage, ⟨some 7, some [1], none, none, "crowd"⟩⟩ ∧
    Response.apology maxAttemptsMessage ≠ Response.redirectEvaluation ∧
    Response.apology maxAttemptsMessage ≠ Response.renderHearingScreening :=
  ⟨rfl, rfl, by decide, by decide⟩

/-- C4 amended: for a participant whose hearing-test attempts have reached
the configured maximum, the GET branch always answers with the terminal
page and never issues a new challenge, whatever the rejection toggle; a
failing POST by such a participant records the failure and, only when
rejection is disabled, passes the participant through to the workflow
controller, while with rejection enabled it redirects back to the GET
branch (whose terminal page follows); no warning is flashed in either
case. -/
theorem hearing_test_attempt_limit
    (cfg : Config) (p : Participant) (draws : Nat → Nat × Nat) (fuel : Nat)
    (s : SessionState) (tok2 : Option Token) (n1 r1 r2 fpt : Nat)
    (h : p.hearing_test_attempts ≥ cfg.max_hearing_test_attempts)
    (hw : r1 ≠ n1 / fpt) :
    hearing_test_get cfg p draws fuel s =
      some ⟨Response.apology maxAttemptsMessage, s⟩ ∧
    hearing_test_post cfg p (some (Token.valid n1)) tok2 r1 r2 fpt =
      hearingFailBranch cfg p ∧
    (hearingFailBranch cfg p).participant = p.set_passed_hearing_test false ∧
    (hearingFailBranch cfg p).control =
      (if cfg.hearing_test_rejection_enabled then HearingPostControl.redirectGet
       else HearingPostControl.proceed) ∧
    (hearingFailBranch cfg p).warned = false := by
  have hnot : ¬ (p.set_passed_hearing_test false).hearing_test_attempts <
      cfg.max_hearing_test_attempts := by
    simp only [Participant.set_passed_hearing_test]
    omega
  refine ⟨?_, ?_, hearingFailBranch_participant cfg p, ?_, ?_⟩
  · unfold hearing_test_get
    rw [if_pos h]
  · simp [hearing_test_post, decrypt_data, hw]
  · cases hr : cfg.hearing_test_rejection_enabled <;>
      simp [hearingFailBranch, hnot, hr]
  · cases hr : cfg.hearing_test_rejection_enabled <;>
      simp [hearingFailBranch, hnot, hr]

/-- C4 amended, witness at a concrete input: attempts 2 of 2, rejection
disabled — the GET shows the terminal page, and the recorded failure of a
wrong POST passes the participant through. -/
theorem hearing_test_attempt_limit_witness :
    hearing_test_get ⟨false, true, false, 2, false⟩ ⟨7, true, 2, false, false, none⟩
        (fun _ => (1, 2)) 3 ⟨some 7, some [1], none, none, "crowd"⟩ =
      some ⟨Response.apology maxAttemptsMessage, ⟨some 7, some [1], none, none, "crowd"⟩⟩ ∧
    (hearingFailBranch ⟨false, true, false, 2, false⟩
        ⟨7, true, 2, false, false, none⟩).control = HearingPostControl.proceed := by
  have h := hearing_test_attempt_limit ⟨false, true, false, 2, false⟩
    ⟨7, true, 2, false, false, none⟩ (fun _ => (1, 2)) 3
    ⟨some 7, some [1], none, none, "crowd"⟩ none 9 0 0 4 (by decide) (by decide)
  exact ⟨h.1, h.2.2.2.1.trans (by rfl)⟩

/-- C5: with both challenge tokens present and decodable, the hearing-test
POST records a pass exactly when both reported tone counts equal the
decoded stored index integer-divided by the files-per-tone-count constant
(`fpt`, positive as in the settings); when either count differs, a failure
is recorded instead — the persisted outcome is false and the attempt
counter is incremented. -/
theorem hearing_test_post_pass_iff
    (cfg : Config) (p : Participant) (n1 n2 r1 r2 fpt : Nat) (_hf : 0 < fpt) :
    (r1 = n1 / fpt ∧ r2 = n2 / fpt →
      hearing_test_post cfg p (some (Token.valid n1)) (some (Token.valid n2)) r1 r2 fpt =
        ⟨p.set_passed_hearing_test true, HearingPostControl.proceed, false⟩) ∧
    (¬(r1 = n1 / fpt ∧ r2 = n2 / fpt) →
      (hearing_test_post cfg p (some (Token.valid n1))
          (some (Token.valid n2)) r1 r2 fpt).participant =
        p.set_passed_hearing_test false ∧
      (p.set_passed_hearing_test false).hearing_test_attempts =
        p.hearing_test_attempts + 1 ∧
      (p.set_passed_hearing_test false).passed_hearing_test = false) := by
  constructor
  · rintro ⟨h1, h2⟩
    simp [hearing_test_post, decrypt_data, h1, h2]
  · intro hno
    by_cases h1 : r1 = n1 / fpt
    · have h2 : r2 ≠ n2 / fpt := fun h2 => hno ⟨h1, h2⟩
      exact ⟨by simp [hearing_test_post, decrypt_data, h1, h2,
        hearingFailBranch_participant], rfl, rfl⟩
    · exact ⟨by simp [hearing_test_post, decrypt_data, h1,
        hearingFailBranch_participant], rfl, rfl⟩

/-- C5, witness at a concrete input: indices 9 and 4 with four files per
tone count expect counts 2 and 1, and reporting exactly those records a
pass. -/
theorem hearing_test_post_pass_iff_witness :
    (0 : Nat) < 4 ∧
    hearing_test_post ⟨false, true, false, 2, true⟩ ⟨7, true, 0, false, false, none⟩
        (some (Token.valid 9)) (some (Token.valid 4)) 2 1 4 =
      ⟨Participant.set_passed_hearing_test ⟨7, true, 0, false, false, none⟩ true,
       HearingPostControl.proceed, false⟩ :=
  ⟨by decide,
   (hearing_test_post_pass_iff ⟨false, true, false, 2, true⟩
     ⟨7, true, 0, false, false, none⟩ 9 4 2 1 4 (by decide)).1 ⟨by decide, by decide⟩⟩

/-- C6: a hearing-test POST whose first challenge token is missing from the
session, or present but failing verification, is not handled as a failed
attempt: only the session lookup is guarded by the `except KeyError`
branch, so the decode of the missing value raises out of the handler
(`crash`), no failure is recorded and the attempt counter is unchanged —
the participant row is exactly as it was. -/
theorem hearing_test_post_missing_token_crashes
    (cfg : Config) (p : Participant) (tok2 : Option Token) (r1 r2 fpt : Nat) :
    hearing_test_post cfg p none tok2 r1 r2 fpt =
      ⟨p, HearingPostControl.crash "cannot decode hearing_test_audio_index1", false⟩ ∧
    hearing_test_post cfg p (some Token.tampered) tok2 r1 r2 fpt =
      ⟨p, HearingPostControl.crash "cannot decode hearing_test_audio_index1", false⟩ ∧
    (hearing_test_post cfg p none tok2 r1 r2 fpt).participant.hearing_test_attempts =
      p.hearing_test_attempts :=
  ⟨rfl, rfl, rfl⟩

/-- C7: the pre-evaluation workflow controller is deterministic: with the
same persisted participant rows, the same configuration, the same
inclusion predicate and the same condition allocation, two invocations
from sessions resolving the same participant id compute the same next
step, whatever else the two sessions contain. -/
theorem pre_evaluation_tasks_deterministic
    (cfg : Config) (surveyValid : String → Bool) (db : List Participant)
    (alloc : Participant → Option (List Nat)) (s1 s2 : SessionState)
    (h : s1.participant_id = s2.participant_id) :
    (pre_evaluation_tasks cfg surveyValid db alloc s1).response =
    (pre_evaluation_tasks cfg surveyValid db alloc s2).response := by
  unfold pre_evaluation_tasks
  rw [get_current_participant_congr db s1 s2 h]
  cases get_current_participant db s2 <;> rfl

/-- C7, witness: two sessions with the same participant id but different
leftover state (stale condition ids, a stray challenge token, different
crowd metadata) produce the same next step. -/
theorem pre_evaluation_tasks_deterministic_witness :
    (pre_evaluation_tasks ⟨true, true, true, 2, true⟩ (fun _ => true)
        [⟨7, true, 0, false, false, none⟩] (fun _ => some [1])
        ⟨some 7, none, none, none, "a"⟩).response =
    (pre_evaluation_tasks ⟨true, true, true, 2, true⟩ (fun _ => true)
        [⟨7, true, 0, false, false, none⟩] (fun _ => some [1])
        ⟨some 7, some [5], some Token.tampered, none, "b"⟩).response :=
  pre_evaluation_tasks_deterministic ⟨true, true, true, 2, true⟩ (fun _ => true)
    [⟨7, true, 0, false, false, none⟩] (fun _ => some [1])
    ⟨some 7, none, none, none, "a"⟩
    ⟨some 7, some [5], some Token.tampered, none, "b"⟩ rfl

/-- C8 counterexample: the claim states that a session's assigned
condition-id set is fixed once computed, no later workflow-controller
invocation changing it.  The controller instead overwrites
`session['condition_ids']` with a fresh allocator call on every
invocation: when the allocator's output changes between two invocations in
the same session (condition 1 available first, only condition 2 later),
the second invocation changes the stored set. -/
theorem condition_ids_overwritten_by_later_invocation :
    (pre_evaluation_tasks ⟨false, false, false, 2, true⟩ (fun _ => true)
        [⟨7, true, 0, false, false, none⟩] (fun _ => some [1])
        ⟨some 7, none, none, none, "crowd"⟩).session.condition_ids = some [1] ∧
    (pre_evaluation_tasks ⟨false, false, false, 2, true⟩ (fun _ => true)
        [⟨7, true, 0, false, false, none⟩] (fun _ => some [2])
        (pre_evaluation_tasks ⟨false, false, false, 2, true⟩ (fun _ => true)
          [⟨7, true, 0, false, false, none⟩] (fun _ => some [1])
          ⟨some 7, none, none, none, "crowd"⟩).session).session.condition_ids =
      some [2] ∧
    (some [1] : Option (List Nat)) ≠ some [2] :=
  ⟨rfl, rfl, by decide⟩

/-- C8 amended: every workflow-controller invocation recomputes
`session['condition_ids']`, overwriting it with the allocator's current
output for the resolved participant (so the set is unchanged only when the
allocator returns the same assignment again); the workflow proceeds past
condition assignment — past the no-tasks terminal page — exactly when that
output is a non-empty set. -/
theorem condition_ids_recomputed_each_invocation
    (cfg : Config) (surveyValid : String → Bool) (db : List Participant)
    (alloc : Participant → Option (List Nat)) (s : SessionState) (p : Participant)
    (h : get_current_participant db s = Except.ok p) :
    (pre_evaluation_tasks cfg surveyValid db alloc s).session.condition_ids =
      alloc p ∧
    (alloc p = none ∨ alloc p = some [] →
      (pre_evaluation_tasks cfg surveyValid db alloc s).response =
        Response.apology noTasksMessage) ∧
    ((pre_evaluation_tasks cfg surveyValid db alloc s).response ≠
        Response.apology noTasksMessage →
      ∃ cids, alloc p = some cids ∧ cids ≠ []) := by
  have hres : pre_evaluation_tasks cfg surveyValid db alloc s =
      ⟨pre_evaluation_response cfg surveyValid p (alloc p),
       { s with condition_ids := alloc p }⟩ := by
    unfold pre_evaluation_tasks
    rw [h]
  rw [hres]
  refine ⟨rfl, ?_, ?_⟩
  · intro halloc
    rcases halloc with h0 | h0 <;> simp [pre_evaluation_response, h0]
  · intro hne
    cases halloc : alloc p with
    | none => exact absurd (by simp [pre_evaluation_response, halloc]) hne
    | some cids =>
      cases cids with
      | nil => exact absurd (by simp [pre_evaluation_response, halloc]) hne
      | cons a l => exact ⟨a :: l, rfl, by simp⟩

/-- C8 amended, witness: the session held condition 1, the allocator now
answers condition 3, and the invocation leaves condition 3 in the session. -/
theorem condition_ids_recomputed_each_invocation_witness :
    (pre_evaluation_tasks ⟨false, false, false, 2, true⟩ (fun _ => true)
        [⟨7, true, 0, false, false, none⟩] (fun _ => some [3])
        ⟨some 7, some [1], none, none, "crowd"⟩).session.condition_ids = some [3] :=
  (condition_ids_recomputed_each_invocation ⟨false, false, false, 2, true⟩
    (fun _ => true) [⟨7, true, 0, false, false, none⟩] (fun _ => some [3])
    ⟨some 7, some [1], none, none, "crowd"⟩ ⟨7, true, 0, false, false, none⟩ rfl).1

/-- C9 counterexample: the claim states that a recorded but invalid
pre-test survey sends the participant back to the pre-test survey step.
With the survey enabled, consent given, a recent screening pass and a
condition assigned, a participant whose recorded survey fails the
inclusion criteria receives the terminal inclusion-criteria page — not
the survey redirect. -/
theorem invalid_survey_terminal_not_redirect :
    pre_evaluation_response ⟨true, true, true, 2, true⟩ (fun _ => false)
        ⟨7, true, 0, true, true, some "survey"⟩ (some [1]) =
      Response.apology inclusionMessage ∧
    Response.apology inclusionMessage ≠ Response.redirectPreTestSurvey :=
  ⟨rfl, by decide⟩

/-- C9 amended: when the pre-test survey branch is reached (non-empty
condition assignment, consent requirement met, hearing screening met,
survey enabled), the controller redirects to the survey step exactly when
no survey is recorded; a recorded survey that fails the inclusion criteria
gets the terminal inclusion-criteria page, and only a recorded valid
survey proceeds to the evaluation. -/
theorem pre_test_survey_routing
    (cfg : Config) (surveyValid : String → Bool) (p : Participant) (cids : List Nat)
    (h1 : (cfg.obtain_consent && !p.gave_consent) = false)
    (h2 : (cfg.hearing_screening_test_enabled && !p.passed_hearing_test_recently) = false)
    (h3 : cfg.pre_test_survey_enabled = true)
    (h4 : cids ≠ []) :
    (p.pre_test_survey = none →
      pre_evaluation_response cfg surveyValid p (some cids) =
        Response.redirectPreTestSurvey) ∧
    (∀ survey, p.pre_test_survey = some survey → surveyValid survey = false →
      pre_evaluation_response cfg surveyValid p (some cids) =
        Response.apology inclusionMessage) ∧
    (∀ survey, p.pre_test_survey = some survey → surveyValid survey = true →
      pre_evaluation_response cfg surveyValid p (some cids) =
        Response.redirectEvaluation) := by
  have hempty : cids.isEmpty = false := by
    cases cids with
    | nil => exact absurd rfl h4
    | cons a l => rfl
  refine ⟨fun hs => ?_, fun survey hs hv => ?_, fun survey hs hv => ?_⟩
  · simp [pre_evaluation_response, hempty, h1, h2, h3, hs]
  · simp [pre_evaluation_response, hempty, h1, h2, h3, hs, hv]
  · simp [pre_evaluation_response, hempty, h1, h2, h3, hs, hv]

/-- C9 amended, witness: a recorded invalid survey at the survey branch
yields the inclusion-criteria terminal page. -/
theorem pre_test_survey_routing_witness :
    pre_evaluation_response ⟨false, false, true, 2, true⟩ (fun _ => false)
        ⟨7, false, 0, false, false, some "survey"⟩ (some [1]) =
      Response.apology inclusionMessage :=
  (pre_test_survey_routing ⟨false, false, true, 2, true⟩ (fun _ => false)
    ⟨7, false, 0, false, false, some "survey"⟩ [1] rfl rfl rfl
    (by decide)).2.1 "survey" rfl rfl

/-- The redraw loop yields a pair with distinct components as soon as the
draw stream contains one within the inspected window. -/
theorem drawDistinct_some_of_exists (draws : Nat → Nat × Nat) :
    ∀ (fuel start : Nat),
      (∃ j, start ≤ j ∧ j < start + fuel ∧ (draws j).1 ≠ (draws j).2) →
      ∃ pr, drawDistinct draws start fuel = some pr ∧ pr.1 ≠ pr.2 := by
  intro fuel
  induction fuel with
  | zero =>
    intro start h
    obtain ⟨j, hj1, hj2, _⟩ := h
    exact absurd hj2 (by omega)
  | succ fuel ih =>
    intro start h
    by_cases hd : (draws start).1 ≠ (draws start).2
    · exact ⟨draws start, by simp [drawDistinct, hd], hd⟩
    · have heq : (draws start).1 = (draws start).2 := not_not.mp hd
      obtain ⟨j, hj1, hj2, hne⟩ := h
      have hjs : j ≠ start := fun e => hd (e ▸ hne)
      have hstep : drawDistinct draws start (fuel + 1) =
          drawDistinct draws (start + 1) fuel := by
        simp [drawDistinct, heq]
      rw [hstep]
      exact ih (start + 1) ⟨j, by omega, by omega, hne⟩

/-- With a stream whose two components always agree, the redraw loop never
exits, whatever window is inspected. -/
theorem drawDistinct_none_of_agree (draws : Nat → Nat × Nat)
    (h : ∀ j, (draws j).1 = (draws j).2) :
    ∀ fuel start, drawDistinct draws start fuel = none := by
  intro fuel
  induction fuel with
  | zero => intro start; rfl
  | succ fuel ih =>
    intro start
    have hstep : drawDistinct draws start (fuel + 1) =
        drawDistinct draws (start + 1) fuel := by
      simp [drawDistinct, h start]
    rw [hstep]
    exact ih (start + 1)

/-- C10: the challenge redraw loop of the hearing-test GET branch.
Whenever the draw stream ever produces a pair of distinct indices — which
an index range with at least two values admits (second conjunct), and
which holds with probability one for `randint` over such a range — the
loop terminates and the GET stores two distinct encrypted indices in the
session; over a single-value range (`lo = hi`) every in-range stream makes
the loop run forever and the GET never returns. -/
theorem hearing_test_challenge_loop_termination
    (cfg : Config) (p : Participant) (s : SessionState)
    (lo hi : Nat) (draws : Nat → Nat × Nat)
    (hatt : p.hearing_test_attempts < cfg.max_hearing_test_attempts) :
    ((∃ n, (draws n).1 ≠ (draws n).2) →
      ∃ fuel i1 i2, i1 ≠ i2 ∧
        hearing_test_get cfg p draws fuel s =
          some ⟨Response.renderHearingScreening,
            { s with
              hearing_test_audio_index1 := some (encrypt_data i1)
              hearing_test_audio_index2 := some (encrypt_data i2) }⟩) ∧
    (lo < hi →
      ∃ d2 : Nat → Nat × Nat, drawsInRange d2 lo hi ∧ ∃ n, (d2 n).1 ≠ (d2 n).2) ∧
    (lo = hi → drawsInRange draws lo hi →
      ∀ fuel, hearing_test_get cfg p draws fuel s = none) := by
  have hnot : ¬ p.hearing_test_attempts ≥ cfg.max_hearing_test_attempts :=
    not_le.mpr hatt
  refine ⟨?_, ?_, ?_⟩
  · rintro ⟨n, hn⟩
    obtain ⟨pr, hpr, hne⟩ := drawDistinct_some_of_exists draws (n + 1) 0
      ⟨n, by omega, by omega, hn⟩
    refine ⟨n + 1, pr.1, pr.2, hne, ?_⟩
    unfold hearing_test_get
    rw [if_neg hnot, hpr]
  · intro hlt
    exact ⟨fun _ => (lo, hi),
      fun n => ⟨le_refl lo, le_of_lt hlt, le_of_lt hlt, le_refl hi⟩,
      0, Nat.ne_of_lt hlt⟩
  · intro heq hin fuel
    have hagree : ∀ j, (draws j).1 = (draws j).2 := by
      intro j
      obtain ⟨a1, a2, a3, a4⟩ := hin j
      subst heq
      omega
    unfold hearing_test_get
    rw [if_neg hnot, drawDistinct_none_of_agree draws hagree fuel 0]

/-- C10, witness: a participant below the attempt limit, with a stream
drawing the distinct pair (1, 2), receives a challenge with two distinct
indices stored. -/
theorem hearing_test_challenge_loop_termination_witness :
    ∃ fuel i1 i2, i1 ≠ i2 ∧
      hearing_test_get ⟨false, true, false, 2, true⟩ ⟨7, true, 0, false, false, none⟩
          (fun _ => (1, 2)) fuel ⟨some 7, some [1], none, none, "crowd"⟩ =
        some ⟨Response.renderHearingScreening,
          ⟨some 7, some [1], some (encrypt_data i1), some (encrypt_data i2), "crowd"⟩⟩ :=
  (hearing_test_challenge_loop_termination ⟨false, true, false, 2, true⟩
    ⟨7, true, 0, false, false, none⟩ ⟨some 7, some [1], none, none, "crowd"⟩ 1 2
    (fun _ => (1, 2)) (by decide)).1 ⟨0, by decide⟩

end Caqe
